import Mathlib

/-!
Verification of the text-layout and composition engine of the Ads-Penguin
ad-creative generator (src/index.tsx).

The embedding is shallow: JavaScript numbers are modelled as rationals,
a canvas measuring context is an arbitrary function from strings to widths,
and each layout quantity computed by `renderTextOnImage` /
`compositeImageWithLogo` becomes a pure Lean definition over the same
arithmetic as the source.
-/

namespace AdsPenguin

/-- Model of the JavaScript `text.split(' ')` (split on every single space
character, keeping empty fragments). -/
def splitSpaces (text : String) : List String :=
  (text.data.splitOn ' ').map String.mk

/-- Model of the guard `!text || text.trim() === ''` from
`calculateWrappedTextHeight`: the text is empty or whitespace-only. -/
def isBlank (text : String) : Bool :=
  text.data.all (fun c => c.isWhitespace)

/-- The candidate line formed in the wrap loop:
`currentLine.length > 0 ? currentLine + " " + word : word`. -/
def testLine (currentLine word : String) : String :=
  if currentLine.length > 0 then currentLine ++ " " ++ word else word

/-- The word-wrap loop of `calculateWrappedTextHeight` (src/index.tsx,
lines 193-204): the `for (const word of words)` loop followed by the final
`lines.push(currentLine)`. -/
def wrapWords (measure : String → ℚ) (maxWidth : ℚ) :
    List String → List String → String → List String
  | [], lines, currentLine => lines ++ [currentLine]
  | word :: ws, lines, currentLine =>
    if measure (testLine currentLine word) > maxWidth ∧ currentLine.length > 0 then
      wrapWords measure maxWidth ws (lines ++ [currentLine]) word
    else
      wrapWords measure maxWidth ws lines (testLine currentLine word)

/-- `calculateWrappedTextHeight` (src/index.tsx, lines 184-207). The canvas
context is abstracted to the `measure` function it provides; the result is
the pair `(lines, height)` with `height = lines.length * lineHeight`. -/
def calculateWrappedTextHeight (measure : String → ℚ) (text : String)
    (maxWidth lineHeight : ℚ) : List String × ℚ :=
  if isBlank text then ([], 0)
  else
    let lines := wrapWords measure maxWidth (splitSpaces text) [] ""
    (lines, (lines.length : ℚ) * lineHeight)

/-- Joining a list of strings with single spaces (`lines.join(' ')` in
JavaScript terms); used to state the wrap-coverage property. -/
def spaceJoin : List String → String
  | [] => ""
  | [line] => line
  | line :: rest => line ++ " " ++ spaceJoin rest

/-- Whether a string contains two consecutive space characters. -/
def hasDoubleSpaceAux : List Char → Bool
  | c1 :: c2 :: rest =>
    (decide (c1 = ' ') && decide (c2 = ' ')) || hasDoubleSpaceAux (c2 :: rest)
  | _ => false

/-- The claim-side notion "the text has no double spaces". -/
def hasDoubleSpace (text : String) : Bool :=
  hasDoubleSpaceAux text.data

@[simp] theorem spaceJoin_nil : spaceJoin [] = "" := rfl

@[simp] theorem spaceJoin_singleton (a : String) : spaceJoin [a] = a := rfl

theorem spaceJoin_cons (a : String) (l : List String) (h : l ≠ []) :
    spaceJoin (a :: l) = a ++ " " ++ spaceJoin l := by
  cases l with
  | nil => exact absurd rfl h
  | cons b m => rfl

theorem string_length_pos (s : String) (h : s ≠ "") : 0 < s.length := by
  cases s with
  | mk data =>
    cases data with
    | nil => exact absurd rfl h
    | cons c cs => simp [String.length]

theorem spaceJoin_length_pos (l : List String) (hne : l ≠ [])
    (htok : ∀ w ∈ l, w ≠ "") : 0 < (spaceJoin l).length := by
  cases l with
  | nil => exact absurd rfl hne
  | cons a m =>
    cases m with
    | nil =>
      exact string_length_pos a (htok a (by simp))
    | cons b m' =>
      rw [spaceJoin_cons a (b :: m') (by simp)]
      rw [String.length_append, String.length_append]
      have := string_length_pos a (htok a (by simp))
      omega

theorem spaceJoin_append (a b : List String) (ha : a ≠ []) (hb : b ≠ []) :
    spaceJoin (a ++ b) = spaceJoin a ++ " " ++ spaceJoin b := by
  induction a with
  | nil => exact absurd rfl ha
  | cons x xs ih =>
    cases xs with
    | nil =>
      simp only [List.singleton_append, spaceJoin_singleton]
      exact spaceJoin_cons x b hb
    | cons y ys =>
      rw [List.cons_append]
      rw [spaceJoin_cons x ((y :: ys) ++ b) (by simp)]
      rw [spaceJoin_cons x (y :: ys) (by simp)]
      rw [ih (by simp)]
      simp only [String.append_assoc]

/-- Every call of the wrap loop produces at least one more line than were
already committed (the final `lines.push(currentLine)` is unconditional). -/
theorem wrapWords_length_ge (measure : String → ℚ) (maxWidth : ℚ) :
    ∀ (ws : List String) (lines : List String) (cur : String),
      lines.length + 1 ≤ (wrapWords measure maxWidth ws lines cur).length := by
  intro ws
  induction ws with
  | nil => intro lines cur; simp [wrapWords]
  | cons w ws ih =>
    intro lines cur
    rw [wrapWords]
    by_cases h : measure (testLine cur w) > maxWidth ∧ cur.length > 0
    · rw [if_pos h]
      have := ih (lines ++ [cur]) w
      simp at this
      omega
    · rw [if_neg h]
      exact ih lines (testLine cur w)

/-- Chunk-level image of the wrap loop: the same greedy recursion as
`wrapWords`, but keeping each line as the list of tokens it was built from.
Used to relate the produced lines back to the token sequence. -/
def wrapChunks (measure : String → ℚ) (maxWidth : ℚ) :
    List String → List (List String) → List String → List (List String)
  | [], acc, cur => acc ++ [cur]
  | word :: ws, acc, cur =>
    if measure (spaceJoin (cur ++ [word])) > maxWidth ∧ cur ≠ [] then
      wrapChunks measure maxWidth ws (acc ++ [cur]) [word]
    else
      wrapChunks measure maxWidth ws acc (cur ++ [word])

theorem wrapWords_eq_wrapChunks (measure : String → ℚ) (maxWidth : ℚ) :
    ∀ (ws : List String) (acc : List (List String)) (cur : List String),
      (∀ w ∈ ws, w ≠ "") → (∀ w ∈ cur, w ≠ "") → cur ≠ [] →
      wrapWords measure maxWidth ws (acc.map spaceJoin) (spaceJoin cur) =
        (wrapChunks measure maxWidth ws acc cur).map spaceJoin := by
  intro ws
  induction ws with
  | nil =>
    intro acc cur _ _ _
    simp [wrapWords, wrapChunks]
  | cons w ws ih =>
    intro acc cur hws hcur hne
    have hwne : w ≠ "" := hws w (by simp)
    have hws' : ∀ x ∈ ws, x ≠ "" := fun x hx => hws x (by simp [hx])
    have hlen : 0 < (spaceJoin cur).length := spaceJoin_length_pos cur hne hcur
    have htest : testLine (spaceJoin cur) w = spaceJoin (cur ++ [w]) := by
      rw [testLine, if_pos hlen, spaceJoin_append cur [w] hne (by simp)]
      simp
    rw [wrapWords, wrapChunks, htest]
    by_cases hc : measure (spaceJoin (cur ++ [w])) > maxWidth
    · rw [if_pos ⟨hc, hlen⟩, if_pos ⟨hc, hne⟩]
      have : acc.map spaceJoin ++ [spaceJoin cur] = (acc ++ [cur]).map spaceJoin := by
        simp
      rw [this]
      have : (w : String) = spaceJoin [w] := rfl
      rw [this]
      exact ih (acc ++ [cur]) [w] hws' (by simpa using hwne) (by simp)
    · rw [if_neg (fun h => hc h.1), if_neg (fun h => hc h.1)]
      exact ih acc (cur ++ [w])
        hws'
        (by intro x hx
            rcases List.mem_append.mp hx with h | h
            · exact hcur x h
            · simp at h
              subst h
              exact hwne)
        (by simp)

theorem wrapChunks_flatten (measure : String → ℚ) (maxWidth : ℚ) :
    ∀ (ws : List String) (acc : List (List String)) (cur : List String),
      (wrapChunks measure maxWidth ws acc cur).flatten = acc.flatten ++ cur ++ ws := by
  intro ws
  induction ws with
  | nil => intro acc cur; simp [wrapChunks]
  | cons w ws ih =>
    intro acc cur
    rw [wrapChunks]
    by_cases hc : measure (spaceJoin (cur ++ [w])) > maxWidth ∧ cur ≠ []
    · rw [if_pos hc, ih]
      simp
    · rw [if_neg hc, ih]
      simp

theorem wrapChunks_ne_nil (measure : String → ℚ) (maxWidth : ℚ) :
    ∀ (ws : List String) (acc : List (List String)) (cur : List String),
      (∀ c ∈ acc, c ≠ []) → cur ≠ [] →
      ∀ c ∈ wrapChunks measure maxWidth ws acc cur, c ≠ [] := by
  intro ws
  induction ws with
  | nil =>
    intro acc cur hacc hcur c hc
    rw [wrapChunks] at hc
    rcases List.mem_append.mp hc with h | h
    · exact hacc c h
    · simpa using (by simp at h; exact h ▸ hcur)
  | cons w ws ih =>
    intro acc cur hacc hcur c hc
    rw [wrapChunks] at hc
    by_cases h : measure (spaceJoin (cur ++ [w])) > maxWidth ∧ cur ≠ []
    · rw [if_pos h] at hc
      refine ih (acc ++ [cur]) [w] ?_ (by simp) c hc
      intro d hd
      rcases List.mem_append.mp hd with h' | h'
      · exact hacc d h'
      · simp at h'; exact h' ▸ hcur
    · rw [if_neg h] at hc
      exact ih acc (cur ++ [w]) hacc (by simp) c hc

theorem flatten_ne_nil_of_head (c : List String) (rest : List (List String))
    (hc : c ≠ []) : (c :: rest).flatten ≠ [] := by
  cases c with
  | nil => exact absurd rfl hc
  | cons x xs => simp

theorem spaceJoin_map_flatten :
    ∀ (chunks : List (List String)), (∀ c ∈ chunks, c ≠ []) →
      spaceJoin (chunks.map spaceJoin) = spaceJoin chunks.flatten := by
  intro chunks
  induction chunks with
  | nil => simp
  | cons c rest ih =>
    intro h
    have hc : c ≠ [] := h c (by simp)
    have hr : ∀ d ∈ rest, d ≠ [] := fun d hd => h d (by simp [hd])
    cases rest with
    | nil => simp
    | cons d ds =>
      have hdne : d ≠ [] := hr d (by simp)
      have hflat : (d :: ds).flatten ≠ [] := flatten_ne_nil_of_head d ds hdne
      rw [List.map_cons]
      rw [spaceJoin_cons (spaceJoin c) ((d :: ds).map spaceJoin) (by simp)]
      rw [ih hr]
      have : (c :: d :: ds).flatten = c ++ (d :: ds).flatten := rfl
      rw [this, spaceJoin_append c ((d :: ds).flatten) hc hflat]

/-- The first loop iteration when `currentLine` is still empty: the test-line
is the word itself and the break branch cannot fire. -/
theorem wrapWords_cons_empty (measure : String → ℚ) (maxWidth : ℚ)
    (w : String) (ws : List String) (lines : List String) :
    wrapWords measure maxWidth (w :: ws) lines "" =
      wrapWords measure maxWidth ws lines w := by
  rw [wrapWords]
  have hfalse : ¬ (measure (testLine "" w) > maxWidth ∧ ("" : String).length > 0) := by
    intro h
    simpa using h.2
  rw [if_neg hfalse]
  rfl

/-- Claim C1, amended (Wrap-coverage): if every token of the input (split on
single spaces) is nonempty — i.e. the text has no double, leading or trailing
spaces — then concatenating the produced lines with single spaces yields the
same string as concatenating the original token sequence with single spaces:
no token is dropped, duplicated or reordered. -/
theorem wrap_coverage_tokens_nonempty (measure : String → ℚ) (text : String)
    (maxWidth lineHeight : ℚ) (hmw : 0 < maxWidth)
    (hblank : isBlank text = false)
    (htok : ∀ w ∈ splitSpaces text, w ≠ "") :
    spaceJoin (calculateWrappedTextHeight measure text maxWidth lineHeight).1 =
      spaceJoin (splitSpaces text) := by
  rw [calculateWrappedTextHeight, if_neg (by simp [hblank])]
  cases hs : splitSpaces text with
  | nil => simp [wrapWords]
  | cons w ws =>
    rw [hs] at htok
    have hwne : w ≠ "" := htok w (by simp)
    have hws : ∀ x ∈ ws, x ≠ "" := fun x hx => htok x (by simp [hx])
    show spaceJoin (wrapWords measure maxWidth (w :: ws) [] "") = _
    rw [wrapWords_cons_empty]
    have h0 : ([] : List String) = (([] : List (List String)).map spaceJoin) := rfl
    have h1 : (w : String) = spaceJoin [w] := rfl
    rw [h0, h1, wrapWords_eq_wrapChunks measure maxWidth ws [] [w] hws
      (by simpa using hwne) (by simp)]
    rw [spaceJoin_map_flatten (wrapChunks measure maxWidth ws [] [w])
      (wrapChunks_ne_nil measure maxWidth ws [] [w] (by simp) (by simp))]
    rw [wrapChunks_flatten]
    simp

/-- Counterexample to claim C1 as stated: the input `" a"` has no double
spaces, yet the wrap loop drops the leading empty token produced by
`split(' ')`, so the space-joined lines `"a"` do not reproduce the original
token sequence `["", "a"]` (joined: `" a"`). -/
theorem wrap_coverage_counterexample :
    hasDoubleSpace " a" = false ∧ (0 : ℚ) < 1 ∧
    splitSpaces " a" = ["", "a"] ∧
    (calculateWrappedTextHeight (fun _ => 0) " a" 1 1).1 = ["a"] ∧
    spaceJoin (calculateWrappedTextHeight (fun _ => 0) " a" 1 1).1 ≠
      spaceJoin (splitSpaces " a") := by
  refine ⟨by decide, by norm_num, by decide, by decide, by decide⟩

/-- Witness for the amended C1 at a concrete measure, text and width. -/
theorem wrap_coverage_witness :
    spaceJoin (calculateWrappedTextHeight (fun _ => 0) "a b" 1 1).1 =
      spaceJoin (splitSpaces "a b") :=
  wrap_coverage_tokens_nonempty (fun _ => 0) "a b" 1 1 (by norm_num)
    (by decide) (by decide)

/-- Invariant for C2: every committed line either fits within `maxWidth` or
is one of the original tokens (it was adopted while the current line was
still empty, hence is a single word). -/
theorem wrapWords_fit_or_mem (measure : String → ℚ) (maxWidth : ℚ)
    (S : List String) :
    ∀ (ws : List String) (lines : List String) (cur : String),
      (∀ w ∈ ws, w ∈ S) → (∀ l ∈ lines, measure l ≤ maxWidth ∨ l ∈ S) →
      (measure cur ≤ maxWidth ∨ cur ∈ S) →
      ∀ l ∈ wrapWords measure maxWidth ws lines cur,
        measure l ≤ maxWidth ∨ l ∈ S := by
  intro ws
  induction ws with
  | nil =>
    intro lines cur _ hlines hcur l hl
    rw [wrapWords] at hl
    rcases List.mem_append.mp hl with h | h
    · exact hlines l h
    · simp at h
      exact h ▸ hcur
  | cons w ws ih =>
    intro lines cur hws hlines hcur l hl
    have hwS : w ∈ S := hws w (by simp)
    have hws' : ∀ x ∈ ws, x ∈ S := fun x hx => hws x (by simp [hx])
    rw [wrapWords] at hl
    by_cases h : measure (testLine cur w) > maxWidth ∧ cur.length > 0
    · rw [if_pos h] at hl
      refine ih (lines ++ [cur]) w hws' ?_ (Or.inr hwS) l hl
      intro d hd
      rcases List.mem_append.mp hd with h' | h'
      · exact hlines d h'
      · simp at h'
        exact h' ▸ hcur
    · rw [if_neg h] at hl
      refine ih lines (testLine cur w) hws' hlines ?_ l hl
      by_cases hcl : cur.length > 0
      · left
        have : ¬ measure (testLine cur w) > maxWidth := fun hgt => h ⟨hgt, hcl⟩
        exact not_lt.mp this
      · right
        rw [testLine, if_neg hcl]
        exact hwS

/-- Claim C2: every produced line either fits in `maxWidth` under the given
measure or is a single original token (words are never split mid-word), and
a one-token input yields exactly one line containing that token, even when
it is wider than `maxWidth`. -/
theorem wrap_fit_or_single_token (measure : String → ℚ) (text : String)
    (maxWidth lineHeight : ℚ) (hmw : 0 < maxWidth)
    (hblank : isBlank text = false) :
    (∀ l ∈ (calculateWrappedTextHeight measure text maxWidth lineHeight).1,
        measure l ≤ maxWidth ∨ l ∈ splitSpaces text) ∧
    (∀ w : String, splitSpaces text = [w] →
        (calculateWrappedTextHeight measure text maxWidth lineHeight).1 = [w]) := by
  constructor
  · intro l hl
    rw [calculateWrappedTextHeight, if_neg (by simp [hblank])] at hl
    cases hs : splitSpaces text with
    | nil =>
      rw [hs] at hl
      simp [wrapWords] at hl
      -- `splitOn` never returns the empty list, so this case is vacuous
      exact absurd hs (by
        rw [splitSpaces]
        simp only [ne_eq, List.map_eq_nil_iff]
        exact List.splitOnP_ne_nil _ _)
    | cons w ws =>
      rw [hs] at hl
      rw [wrapWords_cons_empty] at hl
      exact wrapWords_fit_or_mem measure maxWidth (w :: ws) ws [] w
        (fun x hx => by simp [hx]) (by simp) (Or.inr (by simp)) l hl
  · intro w hw
    rw [calculateWrappedTextHeight, if_neg (by simp [hblank])]
    show wrapWords measure maxWidth (splitSpaces text) [] "" = [w]
    rw [hw, wrapWords_cons_empty, wrapWords]
    rfl

/-- Witness for C2 at a concrete measure, text and width: the single line
`"hi"` of the one-token input `"hi"` is an original token. -/
theorem wrap_fit_or_single_token_witness :
    (calculateWrappedTextHeight (fun _ => (0 : ℚ)) "hi" 1 1).1 = ["hi"] :=
  (wrap_fit_or_single_token (fun _ => 0) "hi" 1 1 (by norm_num) (by decide)).2
    "hi" (by decide)

theorem string_data_append (a b : String) : (a ++ b).data = a.data ++ b.data := by
  cases a with
  | mk ad =>
    cases b with
    | mk bd => rfl

theorem data_eq_nil_iff (s : String) : s.data = [] ↔ s = "" := by
  cases s with
  | mk d =>
    constructor
    · intro h
      subst h
      rfl
    · intro h
      exact congrArg String.data h

theorem suffix_append_right {α : Type} {l1 l2 : List α} (t : List α)
    (h : l1 <:+ l2) : l1 ++ t <:+ l2 ++ t := by
  obtain ⟨p, hp⟩ := h
  exact ⟨p, by rw [← List.append_assoc, hp]⟩

theorem data_suffix_append {s t : String} (u : String)
    (h : s.data <:+ t.data) : (s ++ u).data <:+ (t ++ u).data := by
  rw [string_data_append, string_data_append]
  exact suffix_append_right u.data h

/-- The word just processed is always a suffix of the candidate line. -/
theorem suffix_data_testLine (cur w : String) :
    w.data <:+ (testLine cur w).data := by
  rw [testLine]
  split_ifs
  · rw [string_data_append]
    exact ⟨(cur ++ " ").data, rfl⟩
  · exact List.suffix_refl _

theorem ne_empty_of_data_suffix {s t : String}
    (h : s.data <:+ t.data) (hs : s ≠ "") : t ≠ "" := by
  intro ht
  obtain ⟨p, hp⟩ := h
  rw [ht] at hp
  have hnil : p ++ s.data = ([] : List Char) := hp
  have h2 := (List.append_eq_nil.mp hnil).2
  exact hs ((data_eq_nil_iff s).mp h2)

/-- For an additive nonnegative measure, a string-level suffix measures no
wider than the whole string. -/
theorem measure_data_suffix (m : String → ℚ)
    (hadd : ∀ s t, m (s ++ t) = m s + m t) (hnn : ∀ s, 0 ≤ m s)
    {s t : String} (h : s.data <:+ t.data) : m s ≤ m t := by
  obtain ⟨p, hp⟩ := h
  have ht : t = String.mk p ++ s := by
    cases s with
    | mk sd =>
      cases t with
      | mk td =>
        have hmk : String.mk p ++ String.mk sd = String.mk (p ++ sd) := rfl
        rw [hmk]
        exact congrArg String.mk hp.symm
  rw [ht, hadd]
  have := hnn (String.mk p)
  linarith

/-- Dominance invariant for the two greedy runs of the wrap loop at widths
`W1 ≤ W2`, directly at the string level (so empty tokens are covered): run 2
is never behind run 1 in committed lines, and either run 1's current line is
a suffix of run 2's longer current line while run 2 leads strictly, or run
2's current line is a suffix of run 1's. -/
theorem wrapWords_dominance (m : String → ℚ) (W1 W2 : ℚ) (hW : W1 ≤ W2)
    (hadd : ∀ s t, m (s ++ t) = m s + m t) (hnn : ∀ s, 0 ≤ m s) :
    ∀ (ws : List String) (lines1 : List String) (cur1 : String)
      (lines2 : List String) (cur2 : String),
      lines2.length ≤ lines1.length →
      (cur2.data <:+ cur1.data ∨
        (lines2.length < lines1.length ∧ cur1.data <:+ cur2.data)) →
      (wrapWords m W2 ws lines2 cur2).length ≤
        (wrapWords m W1 ws lines1 cur1).length := by
  intro ws
  induction ws with
  | nil =>
    intro lines1 cur1 lines2 cur2 hlen _
    simp only [wrapWords, List.length_append, List.length_cons, List.length_nil]
    omega
  | cons w ws ih =>
    intro lines1 cur1 lines2 cur2 hlen hdisj
    simp only [wrapWords]
    by_cases h2e : cur2 = ""
    · -- run 2's current line is empty: it adopts the word freely
      have hb2 : ¬(m (testLine cur2 w) > W2 ∧ cur2.length > 0) := by
        intro hc
        rw [h2e] at hc
        exact absurd hc.2 (by decide)
      rw [if_neg hb2]
      have ht2 : testLine cur2 w = w := by
        rw [h2e, testLine, if_neg (by decide)]
      rw [ht2]
      by_cases h1e : cur1 = ""
      · have hb1 : ¬(m (testLine cur1 w) > W1 ∧ cur1.length > 0) := by
          intro hc
          rw [h1e] at hc
          exact absurd hc.2 (by decide)
        rw [if_neg hb1]
        have ht1 : testLine cur1 w = w := by
          rw [h1e, testLine, if_neg (by decide)]
        rw [ht1]
        exact ih lines1 w lines2 w hlen (Or.inl (List.suffix_refl _))
      · by_cases hb1m : m (testLine cur1 w) > W1
        · rw [if_pos ⟨hb1m, string_length_pos cur1 h1e⟩]
          refine ih (lines1 ++ [cur1]) w lines2 w ?_ (Or.inl (List.suffix_refl _))
          simp only [List.length_append, List.length_cons, List.length_nil]
          omega
        · rw [if_neg (fun hc => hb1m hc.1)]
          exact ih lines1 (testLine cur1 w) lines2 w hlen
            (Or.inl (suffix_data_testLine cur1 w))
    · have hlen2 : cur2.length > 0 := string_length_pos cur2 h2e
      have ht2 : testLine cur2 w = cur2 ++ " " ++ w := by
        rw [testLine, if_pos hlen2]
      by_cases hb2m : m (testLine cur2 w) > W2
      · -- run 2 commits its current line
        rw [if_pos ⟨hb2m, hlen2⟩]
        rcases hdisj with hsuf | ⟨hlt, hsuf⟩
        · -- run 2's line is a suffix of run 1's, so run 1 must commit too
          have h1e : cur1 ≠ "" := ne_empty_of_data_suffix hsuf h2e
          have ht1 : testLine cur1 w = cur1 ++ " " ++ w := by
            rw [testLine, if_pos (string_length_pos cur1 h1e)]
          have hb1m : m (testLine cur1 w) > W1 := by
            rw [ht1]
            rw [ht2] at hb2m
            have hsfx : (cur2 ++ " " ++ w).data <:+ (cur1 ++ " " ++ w).data :=
              data_suffix_append w (data_suffix_append " " hsuf)
            have := measure_data_suffix m hadd hnn hsfx
            linarith
          rw [if_pos ⟨hb1m, string_length_pos cur1 h1e⟩]
          refine ih (lines1 ++ [cur1]) w (lines2 ++ [cur2]) w ?_
            (Or.inl (List.suffix_refl _))
          simp only [List.length_append, List.length_cons, List.length_nil]
          omega
        · -- run 2 strictly leads and may use one commit of its lead
          by_cases hb1 : m (testLine cur1 w) > W1 ∧ cur1.length > 0
          · rw [if_pos hb1]
            refine ih (lines1 ++ [cur1]) w (lines2 ++ [cur2]) w ?_
              (Or.inl (List.suffix_refl _))
            simp only [List.length_append, List.length_cons, List.length_nil]
            omega
          · rw [if_neg hb1]
            refine ih lines1 (testLine cur1 w) (lines2 ++ [cur2]) w ?_
              (Or.inl (suffix_data_testLine cur1 w))
            simp only [List.length_append, List.length_cons, List.length_nil]
            omega
      · rw [if_neg (fun hc => hb2m hc.1)]
        rw [ht2]
        by_cases hb1 : m (testLine cur1 w) > W1 ∧ cur1.length > 0
        · -- run 1 commits while run 2 extends: run 2 now strictly leads
          rw [if_pos hb1]
          refine ih (lines1 ++ [cur1]) w lines2 (cur2 ++ " " ++ w) ?_ ?_
          · simp only [List.length_append, List.length_cons, List.length_nil]
            omega
          · refine Or.inr ⟨?_, ?_⟩
            · simp only [List.length_append, List.length_cons, List.length_nil]
              omega
            · rw [string_data_append]
              exact ⟨(cur2 ++ " ").data, rfl⟩
        · -- neither commits: both extend, suffix relation is preserved
          rw [if_neg hb1]
          refine ih lines1 (testLine cur1 w) lines2 (cur2 ++ " " ++ w) hlen ?_
          rcases hdisj with hsuf | ⟨hlt, hsuf⟩
          · have h1e : cur1 ≠ "" := ne_empty_of_data_suffix hsuf h2e
            have ht1 : testLine cur1 w = cur1 ++ " " ++ w := by
              rw [testLine, if_pos (string_length_pos cur1 h1e)]
            rw [ht1]
            exact Or.inl (data_suffix_append w (data_suffix_append " " hsuf))
          · refine Or.inr ⟨hlt, ?_⟩
            by_cases h1e : cur1 = ""
            · have ht1 : testLine cur1 w = w := by
                rw [h1e, testLine, if_neg (by decide)]
              rw [ht1, string_data_append]
              exact ⟨(cur2 ++ " ").data, rfl⟩
            · have ht1 : testLine cur1 w = cur1 ++ " " ++ w := by
                rw [testLine, if_pos (string_length_pos cur1 h1e)]
              rw [ht1]
              exact data_suffix_append w (data_suffix_append " " hsuf)

/-- Claim C5, amended (Wrap-monotonic): for an additive, nonnegative measure
(the behaviour of real text measurement: widths add under concatenation and
are never negative), any text, and a fixed line height, increasing `maxWidth`
never increases the number of lines. -/
theorem wrap_monotonic_additive (measure : String → ℚ) (text : String)
    (lineHeight W1 W2 : ℚ)
    (hadd : ∀ s t, measure (s ++ t) = measure s + measure t)
    (hnn : ∀ s, 0 ≤ measure s)
    (hW : W1 ≤ W2) :
    (calculateWrappedTextHeight measure text W2 lineHeight).1.length ≤
      (calculateWrappedTextHeight measure text W1 lineHeight).1.length := by
  by_cases hb : isBlank text
  · simp [calculateWrappedTextHeight, hb]
  · simp only [calculateWrappedTextHeight, if_neg hb]
    exact wrapWords_dominance measure W1 W2 hW hadd hnn (splitSpaces text)
      [] "" [] "" le_rfl (Or.inl (List.suffix_refl _))

/-- Counterexample to claim C5 as stated: for an arbitrary (non-additive)
measure function, widening the maximum width can increase the line count.
With the measure below, wrapping `"a b c d"` at width 4 yields 2 lines but
at width 6 yields 3 lines. -/
theorem wrap_monotonic_counterexample :
    (4 : ℚ) ≤ 6 ∧
    (calculateWrappedTextHeight
        (fun s => if s = "a b" then (5 : ℚ) else if s = "a b c" then 10
          else if s = "c d" then 10 else 1) "a b c d" 4 1).1.length = 2 ∧
    (calculateWrappedTextHeight
        (fun s => if s = "a b" then (5 : ℚ) else if s = "a b c" then 10
          else if s = "c d" then 10 else 1) "a b c d" 6 1).1.length = 3 ∧
    ¬ ((calculateWrappedTextHeight
        (fun s => if s = "a b" then (5 : ℚ) else if s = "a b c" then 10
          else if s = "c d" then 10 else 1) "a b c d" 6 1).1.length ≤
      (calculateWrappedTextHeight
        (fun s => if s = "a b" then (5 : ℚ) else if s = "a b c" then 10
          else if s = "c d" then 10 else 1) "a b c d" 4 1).1.length) := by
  refine ⟨by norm_num, by decide, by decide, by decide⟩

/-- Witness for the amended C5 with the additive measure `string length`, on
a text containing an empty token (a double space). -/
theorem wrap_monotonic_witness :
    (calculateWrappedTextHeight (fun s => (s.length : ℚ)) "a  b" 2 1).1.length ≤
      (calculateWrappedTextHeight (fun s => (s.length : ℚ)) "a  b" 1 1).1.length :=
  wrap_monotonic_additive (fun s => (s.length : ℚ)) "a  b" 1 1 2
    (by intro s t
        show ((s ++ t).length : ℚ) = (s.length : ℚ) + (t.length : ℚ)
        rw [String.length_append]
        push_cast
        ring)
    (by intro s
        show (0 : ℚ) ≤ (s.length : ℚ)
        positivity)
    (by norm_num)

/-- Claim C3 (Wrap-empty): the wrap function returns `([], 0)` on the empty
string and on a whitespace-only string, for any positive width and line
height. -/
theorem wrap_empty_blank (measure : String → ℚ) (W L : ℚ)
    (hW : 0 < W) (hL : 0 < L) :
    calculateWrappedTextHeight measure "" W L = ([], 0) ∧
    calculateWrappedTextHeight measure "   " W L = ([], 0) := by
  constructor
  · rw [calculateWrappedTextHeight, if_pos (by decide)]
  · rw [calculateWrappedTextHeight, if_pos (by decide)]

/-- Witness for C3 at a concrete measure, width and line height. -/
theorem wrap_empty_blank_witness :
    calculateWrappedTextHeight (fun _ => 0) "" 1 1 = ([], 0) ∧
    calculateWrappedTextHeight (fun _ => 0) "   " 1 1 = ([], 0) :=
  wrap_empty_blank (fun _ => 0) 1 1 (by norm_num) (by norm_num)

/-- Claim C4 (WrapResult invariant): for every input the reported height is
`lines.length * lineHeight`, and unless the input is blank the result has at
least one line. -/
theorem wrap_height_invariant (measure : String → ℚ) (text : String)
    (maxWidth lineHeight : ℚ) :
    (calculateWrappedTextHeight measure text maxWidth lineHeight).2 =
      ((calculateWrappedTextHeight measure text maxWidth lineHeight).1.length : ℚ)
        * lineHeight ∧
    (isBlank text = true ∨
      1 ≤ (calculateWrappedTextHeight measure text maxWidth lineHeight).1.length) := by
  by_cases hb : isBlank text
  · rw [calculateWrappedTextHeight, if_pos hb]
    exact ⟨by simp, Or.inl hb⟩
  · rw [calculateWrappedTextHeight, if_neg hb]
    refine ⟨rfl, Or.inr ?_⟩
    have := wrapWords_length_ge measure maxWidth (splitSpaces text) [] ""
    simpa using this

/-! ### Layout and compositor (`renderTextOnImage`, src/index.tsx 221-321) -/

/-- Inputs of `renderTextOnImage`. The canvas 2D context is abstracted to a
`measure` function taking the font weight and font size set via `ctx.font`
and the string passed to `ctx.measureText`. The canvas has the base image's
native dimensions. -/
structure RenderInput where
  measure : ℚ → ℚ → String → ℚ
  canvasWidth : ℚ
  canvasHeight : ℚ
  headline : String
  body : String
  ctaText : Option String

/-- `const padding = canvas.width * 0.06`. -/
def padding (i : RenderInput) : ℚ := i.canvasWidth * 0.06

/-- `const contentWidth = canvas.width - (padding * 2)`. -/
def contentWidth (i : RenderInput) : ℚ := i.canvasWidth - padding i * 2

/-- `const headlineFontSize = Math.max(24, Math.floor(canvas.width / 20))`. -/
def headlineFontSize (i : RenderInput) : ℚ := max 24 ((⌊i.canvasWidth / 20⌋ : ℤ) : ℚ)

/-- `const headlineLineHeight = headlineFontSize * 1.3`. -/
def headlineLineHeight (i : RenderInput) : ℚ := headlineFontSize i * 1.3

/-- `const bodyFontSize = Math.max(16, Math.floor(canvas.width / 30))`. -/
def bodyFontSize (i : RenderInput) : ℚ := max 16 ((⌊i.canvasWidth / 30⌋ : ℤ) : ℚ)

/-- `const bodyLineHeight = bodyFontSize * 1.4`. -/
def bodyLineHeight (i : RenderInput) : ℚ := bodyFontSize i * 1.4

/-- `const spacing = bodyFontSize * 1.2`. -/
def spacing (i : RenderInput) : ℚ := bodyFontSize i * 1.2

/-- The headline dry-run wrap, measured at weight 700, headline font size. -/
def headlineMetrics (i : RenderInput) : List String × ℚ :=
  calculateWrappedTextHeight (i.measure 700 (headlineFontSize i)) i.headline
    (contentWidth i) (headlineLineHeight i)

/-- The body dry-run wrap, measured at weight 400, body font size. -/
def bodyMetrics (i : RenderInput) : List String × ℚ :=
  calculateWrappedTextHeight (i.measure 400 (bodyFontSize i)) i.body
    (contentWidth i) (bodyLineHeight i)

/-- The guard `ctaText && ctaText.trim().length > 0`. -/
def ctaPresent : Option String → Bool
  | none => false
  | some t => !(isBlank t)

/-- `const ctaFontSize = bodyFontSize * 1.1`. -/
def ctaFontSize (i : RenderInput) : ℚ := bodyFontSize i * 1.1

/-- `ctaBlockHeight = ctaFontSize * 2.4`, or 0 when no CTA is present. -/
def ctaBlockHeight (i : RenderInput) : ℚ :=
  if ctaPresent i.ctaText then ctaFontSize i * 2.4 else 0

/-- The accumulated `totalContentHeight` after steps 1-3 of the dry run. -/
def totalContentHeight (i : RenderInput) : ℚ :=
  (headlineMetrics i).2
    + (if (bodyMetrics i).2 > 0 then spacing i + (bodyMetrics i).2 else 0)
    + (if ctaPresent i.ctaText then padding i + ctaBlockHeight i else 0)

/-- `const rectHeight = totalContentHeight + (padding * 2)`. -/
def rectHeight (i : RenderInput) : ℚ := totalContentHeight i + padding i * 2

/-- `const rectY = canvas.height - rectHeight`. -/
def rectY (i : RenderInput) : ℚ := i.canvasHeight - rectHeight i

/-- `const safeRectY = Math.max(0, rectY)`. -/
def safeRectY (i : RenderInput) : ℚ := max 0 (rectY i)

/-- `const safeRectHeight = canvas.height - safeRectY`. -/
def safeRectHeight (i : RenderInput) : ℚ := i.canvasHeight - safeRectY i

/-- `let currentY = safeRectY + padding`, the headline top anchor. -/
def headlineY (i : RenderInput) : ℚ := safeRectY i + padding i

/-- `currentY` after drawing the headline block. -/
def afterHeadlineY (i : RenderInput) : ℚ := headlineY i + (headlineMetrics i).2

/-- `currentY` after the optional body block. -/
def afterBodyY (i : RenderInput) : ℚ :=
  if (bodyMetrics i).2 > 0 then afterHeadlineY i + spacing i + (bodyMetrics i).2
  else afterHeadlineY i

/-- The CTA y-position as naturally computed (`currentY += padding`). -/
def ctaNaturalY (i : RenderInput) : ℚ := afterBodyY i + padding i

/-- The CTA y-position after the bottom-safety clamp
(`if (currentY + ctaBlockHeight > canvas.height) currentY = canvas.height -
ctaBlockHeight - padding / 2`). -/
def ctaY (i : RenderInput) : ℚ :=
  if ctaNaturalY i + ctaBlockHeight i > i.canvasHeight then
    i.canvasHeight - ctaBlockHeight i - padding i / 2
  else ctaNaturalY i

/-- `ctx.measureText(ctaText).width` at the CTA font (weight 700). -/
def ctaTextWidth (i : RenderInput) : ℚ :=
  i.measure 700 (ctaFontSize i) (i.ctaText.getD "")

/-- `const ctaButtonWidth = ctaMetrics.width + (padding * 2)`. -/
def ctaButtonWidth (i : RenderInput) : ℚ := ctaTextWidth i + padding i * 2

/-- `const ctaButtonX = (canvas.width - ctaButtonWidth) / 2`. -/
def ctaButtonX (i : RenderInput) : ℚ := (i.canvasWidth - ctaButtonWidth i) / 2

/-- The primitive 2D-canvas drawing commands issued by the compositor. -/
inductive DrawOp where
  | fillRect (x y w h : ℚ) (style : String)
  | fillText (text : String) (x y : ℚ) (style : String)
deriving DecidableEq

/-- `drawWrappedText` (src/index.tsx, lines 210-216): draw each line at `x`,
advancing `currentY` by `lineHeight` per line. -/
def drawWrappedText (lines : List String) (x y lineHeight : ℚ)
    (style : String) : List DrawOp :=
  match lines with
  | [] => []
  | l :: ls => DrawOp.fillText l x y style :: drawWrappedText ls x (y + lineHeight) lineHeight style

/-- The ordered list of drawing commands of `renderTextOnImage` after the
base image is painted: panel rectangle, headline lines, optional body lines,
optional CTA button and label. -/
def renderOps (i : RenderInput) : List DrawOp :=
  DrawOp.fillRect 0 (safeRectY i) i.canvasWidth (safeRectHeight i) "rgba(0, 0, 0, 0.65)"
    :: (drawWrappedText (headlineMetrics i).1 (i.canvasWidth / 2) (headlineY i)
          (headlineLineHeight i) "white"
    ++ (if (bodyMetrics i).2 > 0 then
          drawWrappedText (bodyMetrics i).1 (i.canvasWidth / 2)
            (afterHeadlineY i + spacing i) (bodyLineHeight i) "white"
        else [])
    ++ (if ctaBlockHeight i > 0 then
          [DrawOp.fillRect (ctaButtonX i) (ctaY i) (ctaButtonWidth i) (ctaBlockHeight i) "#bb86fc",
           DrawOp.fillText (i.ctaText.getD "") (i.canvasWidth / 2)
             (ctaY i + ctaBlockHeight i / 2) "#121212"]
        else []))

/-! ### Logo compositor (`compositeImageWithLogo`, src/index.tsx 325-383) -/

/-- Inputs of `compositeImageWithLogo`: base image (= canvas) dimensions, the
logo's native dimensions, and the requested corner. The position is kept as a
raw string so that unrecognized values can be stated. -/
structure LogoInput where
  canvasWidth : ℚ
  canvasHeight : ℚ
  logoNaturalWidth : ℚ
  logoNaturalHeight : ℚ
  position : String

/-- `const padding = canvas.width * 0.05`. -/
def logoPadding (i : LogoInput) : ℚ := i.canvasWidth * 0.05

/-- `const logoWidth = canvas.width * 0.2`. -/
def logoWidth (i : LogoInput) : ℚ := i.canvasWidth * 0.2

/-- `const scale = logoWidth / logoImage.width`. -/
def logoScale (i : LogoInput) : ℚ := logoWidth i / i.logoNaturalWidth

/-- `const logoHeight = logoImage.height * scale`. -/
def logoHeight (i : LogoInput) : ℚ := i.logoNaturalHeight * logoScale i

/-- The `switch (position)` choosing the drawn logo's top-left corner; any
unrecognized value falls through to the `bottom-right` default. -/
def logoXY (i : LogoInput) : ℚ × ℚ :=
  if i.position = "top-left" then (logoPadding i, logoPadding i)
  else if i.position = "top-right" then
    (i.canvasWidth - logoWidth i - logoPadding i, logoPadding i)
  else if i.position = "bottom-left" then
    (logoPadding i, i.canvasHeight - logoHeight i - logoPadding i)
  else
    (i.canvasWidth - logoWidth i - logoPadding i,
     i.canvasHeight - logoHeight i - logoPadding i)

/-- The rectangle `(x, y, width, height)` passed to
`ctx.drawImage(logoImage, x, y, logoWidth, logoHeight)`. -/
def compositeImageWithLogo (i : LogoInput) : ℚ × ℚ × ℚ × ℚ :=
  ((logoXY i).1, (logoXY i).2, logoWidth i, logoHeight i)

/-! ### Theorems about the compositor -/

theorem headlineFontSize_ge (i : RenderInput) : 24 ≤ headlineFontSize i :=
  le_max_left _ _

theorem bodyFontSize_ge (i : RenderInput) : 16 ≤ bodyFontSize i :=
  le_max_left _ _

theorem calc_height_nonneg (m : String → ℚ) (t : String) (mw lh : ℚ)
    (h : 0 ≤ lh) : 0 ≤ (calculateWrappedTextHeight m t mw lh).2 := by
  by_cases hb : isBlank t
  · simp [calculateWrappedTextHeight, hb]
  · simp only [calculateWrappedTextHeight, if_neg hb]
    exact mul_nonneg (Nat.cast_nonneg _) h

theorem padding_nonneg (i : RenderInput) (hW : 0 ≤ i.canvasWidth) :
    0 ≤ padding i := by
  unfold padding
  have h : (0 : ℚ) ≤ 0.06 := by norm_num
  exact mul_nonneg hW h

theorem ctaBlockHeight_nonneg (i : RenderInput) : 0 ≤ ctaBlockHeight i := by
  unfold ctaBlockHeight
  split_ifs
  · unfold ctaFontSize
    have := bodyFontSize_ge i
    linarith
  · exact le_refl 0

theorem totalContentHeight_nonneg (i : RenderInput) (hW : 0 ≤ i.canvasWidth) :
    0 ≤ totalContentHeight i := by
  have h1 : 0 ≤ (headlineMetrics i).2 := by
    refine calc_height_nonneg _ _ _ _ ?_
    unfold headlineLineHeight
    have := headlineFontSize_ge i
    linarith
  have h2 : 0 ≤ (bodyMetrics i).2 := by
    refine calc_height_nonneg _ _ _ _ ?_
    unfold bodyLineHeight
    have := bodyFontSize_ge i
    linarith
  have h3 : 0 ≤ spacing i := by
    unfold spacing
    have := bodyFontSize_ge i
    linarith
  have h4 := padding_nonneg i hW
  have h5 := ctaBlockHeight_nonneg i
  unfold totalContentHeight
  split_ifs <;> linarith

/-- Claim C6 (Panel-clamp): the panel top is
`max(0, canvasHeight - (totalContentHeight + 2*padding))`, the drawn panel
height is `canvasHeight - panelTop`, the drawn height is never negative and
never exceeds the canvas, and content at least as tall as the canvas forces
`panelTop = 0` with drawn height exactly `canvasHeight`. -/
theorem panel_clamp (i : RenderInput) (hW : 0 < i.canvasWidth)
    (hH : 0 < i.canvasHeight) :
    safeRectY i = max 0 (i.canvasHeight - (totalContentHeight i + 2 * padding i)) ∧
    safeRectHeight i = i.canvasHeight - safeRectY i ∧
    0 ≤ safeRectHeight i ∧
    safeRectHeight i ≤ i.canvasHeight ∧
    (i.canvasHeight ≤ totalContentHeight i →
      safeRectY i = 0 ∧ safeRectHeight i = i.canvasHeight) := by
  have hpad := padding_nonneg i hW.le
  have htch := totalContentHeight_nonneg i hW.le
  have hrectY : rectY i ≤ i.canvasHeight := by
    unfold rectY rectHeight
    linarith
  refine ⟨?_, rfl, ?_, ?_, ?_⟩
  · unfold safeRectY rectY rectHeight
    rw [show totalContentHeight i + padding i * 2 =
      totalContentHeight i + 2 * padding i from by ring]
  · unfold safeRectHeight safeRectY
    have : max 0 (rectY i) ≤ i.canvasHeight := max_le hH.le hrectY
    linarith
  · unfold safeRectHeight safeRectY
    have : (0 : ℚ) ≤ max 0 (rectY i) := le_max_left 0 _
    linarith
  · intro hover
    have h0 : rectY i ≤ 0 := by
      unfold rectY rectHeight
      linarith
    constructor
    · unfold safeRectY
      exact max_eq_left h0
    · unfold safeRectHeight safeRectY
      rw [max_eq_left h0]
      ring

/-- Claim C7 (CTA-bottom-safety): when the natural CTA position would push
the button past the bottom of the canvas, the clamp puts its bottom edge at
exactly `canvasHeight - padding/2`. -/
theorem cta_bottom_safety (i : RenderInput)
    (hcta : ctaPresent i.ctaText = true)
    (hover : i.canvasHeight < ctaNaturalY i + ctaBlockHeight i) :
    ctaY i + ctaBlockHeight i = i.canvasHeight - padding i / 2 := by
  rw [ctaY, if_pos hover]
  ring

/-- Claim C8: the CTA button rectangle is `measuredTextWidth + 2*padding`
wide at font size `bodyFontSize * 1.1`, horizontally centered, and the label
is drawn at the canvas's horizontal center and the button's vertical
midpoint; both the button rectangle and the label are actually drawn. -/
theorem cta_button_geometry (i : RenderInput)
    (hcta : ctaPresent i.ctaText = true) :
    ctaButtonWidth i =
      i.measure 700 (bodyFontSize i * 1.1) (i.ctaText.getD "") + 2 * padding i ∧
    ctaButtonX i = (i.canvasWidth - ctaButtonWidth i) / 2 ∧
    DrawOp.fillRect (ctaButtonX i) (ctaY i) (ctaButtonWidth i) (ctaBlockHeight i)
      "#bb86fc" ∈ renderOps i ∧
    DrawOp.fillText (i.ctaText.getD "") (i.canvasWidth / 2)
      (ctaY i + ctaBlockHeight i / 2) "#121212" ∈ renderOps i := by
  have hcbh : 0 < ctaBlockHeight i := by
    unfold ctaBlockHeight
    rw [if_pos hcta]
    unfold ctaFontSize
    have := bodyFontSize_ge i
    linarith
  refine ⟨?_, rfl, ?_, ?_⟩
  · unfold ctaButtonWidth ctaTextWidth ctaFontSize
    ring
  · unfold renderOps
    refine List.mem_cons_of_mem _ (List.mem_append.mpr (Or.inr ?_))
    rw [if_pos hcbh]
    simp
  · unfold renderOps
    refine List.mem_cons_of_mem _ (List.mem_append.mpr (Or.inr ?_))
    rw [if_pos hcbh]
    simp

/-- Claim C10: with blank headline and body and no (or blank) CTA the panel
is still drawn: the content height is 0, the panel rectangle has height
`2*padding = 0.12 * canvasWidth` clamped to the canvas height, it is anchored
to the bottom edge, and its fill command is part of the emitted drawing
commands. -/
theorem panel_drawn_when_blank (i : RenderInput)
    (hW : 0 < i.canvasWidth) (hH : 0 < i.canvasHeight)
    (hhl : isBlank i.headline = true) (hbd : isBlank i.body = true)
    (hcta : ctaPresent i.ctaText = false) :
    totalContentHeight i = 0 ∧
    rectHeight i = 0.12 * i.canvasWidth ∧
    safeRectHeight i = min (0.12 * i.canvasWidth) i.canvasHeight ∧
    safeRectY i + safeRectHeight i = i.canvasHeight ∧
    DrawOp.fillRect 0 (safeRectY i) i.canvasWidth (safeRectHeight i)
      "rgba(0, 0, 0, 0.65)" ∈ renderOps i := by
  have hh : (headlineMetrics i).2 = 0 := by
    rw [headlineMetrics, calculateWrappedTextHeight, if_pos hhl]
  have hb : (bodyMetrics i).2 = 0 := by
    rw [bodyMetrics, calculateWrappedTextHeight, if_pos hbd]
  have htch : totalContentHeight i = 0 := by
    unfold totalContentHeight
    rw [hh, hb, if_neg (by norm_num), if_neg (by simp [hcta])]
    ring
  have hrh : rectHeight i = 0.12 * i.canvasWidth := by
    unfold rectHeight padding
    rw [htch]
    ring
  refine ⟨htch, hrh, ?_, ?_, ?_⟩
  · unfold safeRectHeight safeRectY rectY
    rw [hrh]
    rcases le_total (0.12 * i.canvasWidth) i.canvasHeight with h | h
    · rw [max_eq_right (by linarith), min_eq_left h]
      ring
    · rw [max_eq_left (by linarith), min_eq_right h]
      ring
  · unfold safeRectHeight
    ring
  · unfold renderOps
    exact List.mem_cons_self _ _

/-- Claim C9: the logo is drawn at 20% of the canvas width with aspect ratio
preserved, offset `canvasWidth * 0.05` from the relevant edges for each of
the four positions, and any unrecognized position value falls back to the
bottom-right placement. -/
theorem logo_placement (i : LogoInput) :
    logoWidth i = i.canvasWidth * 0.2 ∧
    logoHeight i = i.logoNaturalHeight * (i.canvasWidth * 0.2 / i.logoNaturalWidth) ∧
    logoPadding i = i.canvasWidth * 0.05 ∧
    (compositeImageWithLogo i).2.2.1 = logoWidth i ∧
    (compositeImageWithLogo i).2.2.2 = logoHeight i ∧
    (compositeImageWithLogo i).1 =
      (if i.position = "top-left" ∨ i.position = "bottom-left" then logoPadding i
       else i.canvasWidth - logoWidth i - logoPadding i) ∧
    (compositeImageWithLogo i).2.1 =
      (if i.position = "top-left" ∨ i.position = "top-right" then logoPadding i
       else i.canvasHeight - logoHeight i - logoPadding i) := by
  refine ⟨rfl, ?_, rfl, rfl, rfl, ?_, ?_⟩
  · unfold logoHeight logoScale logoWidth
    ring
  · unfold compositeImageWithLogo logoXY
    split_ifs <;> simp_all
  · unfold compositeImageWithLogo logoXY
    split_ifs <;> simp_all

/-! ### Concrete witness inputs -/

/-- A concrete 100×10 render input with blank headline and body and the CTA
`"Go"`; the CTA overflows the canvas bottom, exercising the clamps. -/
def sampleInput : RenderInput where
  measure := fun _ _ _ => 0
  canvasWidth := 100
  canvasHeight := 10
  headline := ""
  body := ""
  ctaText := some "Go"

/-- A concrete 100×10 render input with blank headline and body and no CTA. -/
def blankInput : RenderInput where
  measure := fun _ _ _ => 0
  canvasWidth := 100
  canvasHeight := 10
  headline := ""
  body := " "
  ctaText := none

theorem floor_100_30 : ((⌊(100 : ℚ) / 30⌋ : ℤ) : ℚ) = 3 := by
  have h : ⌊(100 : ℚ) / 30⌋ = 3 := by
    rw [Int.floor_eq_iff]
    constructor <;> norm_num
  rw [h]
  norm_num

theorem sample_bodyFontSize : bodyFontSize sampleInput = 16 := by
  unfold bodyFontSize
  rw [show sampleInput.canvasWidth = 100 from rfl, floor_100_30]
  exact max_eq_left (by norm_num)

theorem sample_padding : padding sampleInput = 6 := by
  unfold padding
  rw [show sampleInput.canvasWidth = 100 from rfl]
  norm_num

theorem sample_headlineHeight : (headlineMetrics sampleInput).2 = 0 := by
  rw [headlineMetrics, calculateWrappedTextHeight, if_pos (by decide)]

theorem sample_bodyHeight : (bodyMetrics sampleInput).2 = 0 := by
  rw [bodyMetrics, calculateWrappedTextHeight, if_pos (by decide)]

theorem sample_ctaBlockHeight : ctaBlockHeight sampleInput = 42.24 := by
  unfold ctaBlockHeight
  rw [if_pos (by decide)]
  unfold ctaFontSize
  rw [sample_bodyFontSize]
  norm_num

theorem sample_totalContentHeight : totalContentHeight sampleInput = 48.24 := by
  unfold totalContentHeight
  rw [sample_headlineHeight, sample_bodyHeight, if_neg (by norm_num),
    if_pos (by decide), sample_padding, sample_ctaBlockHeight]
  norm_num

theorem sample_safeRectY : safeRectY sampleInput = 0 := by
  unfold safeRectY rectY rectHeight
  rw [sample_totalContentHeight, sample_padding,
    show sampleInput.canvasHeight = 10 from rfl]
  exact max_eq_left (by norm_num)

theorem sample_ctaNaturalY : ctaNaturalY sampleInput = 12 := by
  unfold ctaNaturalY afterBodyY afterHeadlineY headlineY
  rw [sample_bodyHeight, if_neg (by norm_num), sample_headlineHeight,
    sample_safeRectY, sample_padding]
  norm_num

/-- Witness for C6 at `sampleInput`, whose content is taller than the
canvas. -/
theorem panel_clamp_witness :
    safeRectY sampleInput = 0 ∧
    safeRectHeight sampleInput = sampleInput.canvasHeight :=
  (panel_clamp sampleInput (by norm_num [sampleInput]) (by norm_num [sampleInput])).2.2.2.2
    (by rw [sample_totalContentHeight, show sampleInput.canvasHeight = 10 from rfl]
        norm_num)

/-- Witness for C7 at `sampleInput`, whose CTA would overflow the canvas. -/
theorem cta_bottom_safety_witness :
    ctaY sampleInput + ctaBlockHeight sampleInput =
      sampleInput.canvasHeight - padding sampleInput / 2 :=
  cta_bottom_safety sampleInput (by decide)
    (by rw [sample_ctaNaturalY, sample_ctaBlockHeight,
          show sampleInput.canvasHeight = 10 from rfl]
        norm_num)

/-- Witness for C8 at `sampleInput`. -/
theorem cta_button_geometry_witness :
    ctaButtonWidth sampleInput =
      sampleInput.measure 700 (bodyFontSize sampleInput * 1.1)
        (sampleInput.ctaText.getD "") + 2 * padding sampleInput :=
  (cta_button_geometry sampleInput (by decide)).1

/-- Witness for C10 at `blankInput`. -/
theorem panel_drawn_when_blank_witness :
    totalContentHeight blankInput = 0 ∧
    rectHeight blankInput = 0.12 * blankInput.canvasWidth ∧
    safeRectHeight blankInput =
      min (0.12 * blankInput.canvasWidth) blankInput.canvasHeight ∧
    safeRectY blankInput + safeRectHeight blankInput = blankInput.canvasHeight ∧
    DrawOp.fillRect 0 (safeRectY blankInput) blankInput.canvasWidth
      (safeRectHeight blankInput) "rgba(0, 0, 0, 0.65)" ∈ renderOps blankInput :=
  panel_drawn_when_blank blankInput (by norm_num [blankInput])
    (by norm_num [blankInput]) (by decide) (by decide) (by decide)

end AdsPenguin
